import Mathlib

/-!
Verification of the SMS-via-email relay pipeline (`src/main.py`, `src/init_db.py`).

The embedding below translates the pure logic of the program into Lean:

* `CARRIER_MAP` — the static carrier directory (main.py lines 36–44).
* `parse_email_address` — the address decoder (main.py lines 122–147); the
  Python regular expression `^\+?(\d+)@([a-zA-Z.]+)$` is embedded as the
  deterministic scanner `matchAddr` (the regex is anchored and `@` is neither
  a digit nor `+`, so backtracking never produces a second decomposition),
  with `\d` as CPython's Unicode decimal-digit set and `$` accepting the
  end of input or a single newline that ends the input.
* `encodeAddress` — the address encoder used by `send_sms`
  (main.py lines 216–220).
* `fetch_unread_sms` / `processEmail` — the inbound reader
  (main.py lines 47–120) over an abstract mailbox of `RawEmail` values.
* `get_chatgpt_response`, `log_message_to_db`, `send_sms`,
  `handle_unread_sms` — the classifier wrapper, store append, outbound
  sender, and orchestrator (main.py lines 150–238), with the external world
  (classifier transport, sqlite, SMTP) supplied as oracles in an `Env` and
  the observable effects collected as a trace of `Step`s.
-/

/-- The carrier directory, in source order (main.py lines 36–44). -/
def CARRIER_MAP : List (String × String) :=
  [("verizon", "vtext.com"),
   ("tmobile", "tmomail.net"),
   ("sprint", "messaging.sprintpcs.com"),
   ("at&t", "txt.att.net"),
   ("boost", "smsmyboostmobile.com"),
   ("cricket", "sms.cricketwireless.net"),
   ("uscellular", "email.uscc.net")]

/-- The codepoints CPython's `re` accepts for `\d` in a `str` pattern —
the Unicode decimal digits (category Nd) — enumerated as closed codepoint
ranges. -/
def pythonDigitRanges : List (Nat × Nat) :=
  [(48, 57), (1632, 1641), (1776, 1785), (1984, 1993),
   (2406, 2415), (2534, 2543), (2662, 2671), (2790, 2799),
   (2918, 2927), (3046, 3055), (3174, 3183), (3302, 3311),
   (3430, 3439), (3558, 3567), (3664, 3673), (3792, 3801),
   (3872, 3881), (4160, 4169), (4240, 4249), (6112, 6121),
   (6160, 6169), (6470, 6479), (6608, 6617), (6784, 6793),
   (6800, 6809), (6992, 7001), (7088, 7097), (7232, 7241),
   (7248, 7257), (42528, 42537), (43216, 43225), (43264, 43273),
   (43472, 43481), (43504, 43513), (43600, 43609), (44016, 44025),
   (65296, 65305), (66720, 66729), (68912, 68921), (69734, 69743),
   (69872, 69881), (69942, 69951), (70096, 70105), (70384, 70393),
   (70736, 70745), (70864, 70873), (71248, 71257), (71360, 71369),
   (71472, 71481), (71904, 71913), (72016, 72025), (72784, 72793),
   (73040, 73049), (73120, 73129), (92768, 92777), (92864, 92873),
   (93008, 93017), (120782, 120831), (123200, 123209), (123632, 123641),
   (125264, 125273), (130032, 130041)]
/-- `\d` of the Python regex: a Unicode decimal digit. -/
def isDigitChar (c : Char) : Bool :=
  pythonDigitRanges.any (fun r => r.1 ≤ c.toNat && c.toNat ≤ r.2)

/-- `[a-zA-Z.]` of the Python regex. -/
def isDomainChar (c : Char) : Bool := c.isAlpha || c == '.'

/-- `\+?`: drop one leading `+` if present. -/
def stripPlus (cs : List Char) : List Char :=
  match cs with
  | [] => []
  | c :: rest => if c = '+' then rest else c :: rest

/-- Tail step of the anchored match: `digits` is the maximal digit run after
the optional `+`, `rest` is everything after it; the match succeeds when
`rest` is `@` followed by a nonempty run of letters/dots and at least one
digit was read. -/
def matchAddrAux (digits rest : List Char) : Option (List Char × List Char) :=
  match rest with
  | [] => none
  | a :: dom =>
    if a = '@' && !digits.isEmpty && !dom.isEmpty && dom.all isDomainChar then
      some (digits, dom)
    else none

/-- The match `\+?(\d+)@([a-zA-Z.]+)` read to the very end of the input.
Since the expression is anchored and `@` is neither a digit nor `+`, the
decomposition is unique, so a greedy scan is an exact embedding. -/
def matchAddrNoNL (cs : List Char) : Option (List Char × List Char) :=
  matchAddrAux ((stripPlus cs).takeWhile isDigitChar)
    ((stripPlus cs).dropWhile isDigitChar)

/-- Python `$` (without `re.MULTILINE`) matches at the end of the string or
just before a newline that ends the string; since neither `\d` nor
`[a-zA-Z.]` matches a newline, the full pattern accepts a string exactly
when its body matches the string with one trailing newline removed. -/
def stripTrailingNewline (cs : List Char) : List Char :=
  if cs.getLast? = some '\n' then cs.dropLast else cs

/-- The anchored match `^\+?(\d+)@([a-zA-Z.]+)$`, returning the two
capture groups, with Python's `$` semantics. -/
def matchAddr (cs : List Char) : Option (List Char × List Char) :=
  matchAddrNoNL (stripTrailingNewline cs)

/-- The two failure modes of the decoder (both `ValueError` in the source;
the spec names them `MalformedAddress` and `UnknownCarrier`). -/
inductive ParseError where
  | MalformedAddress
  | UnknownCarrier
deriving DecidableEq

/-- Reverse scan of the directory: first carrier whose gateway domain equals
`domain` (main.py lines 140–143). -/
def carrierFor (domain : String) : Option String :=
  (CARRIER_MAP.find? (fun p => p.2 == domain)).map (fun p => p.1)

/-- `parse_email_address` (main.py lines 122–147). -/
def parse_email_address (from_email : String) :
    Except ParseError (String × String) :=
  match matchAddr from_email.toList with
  | none => .error .MalformedAddress
  | some (digits, dom) =>
    match carrierFor (String.mk dom) with
    | some carrier => .ok (String.mk digits, carrier)
    | none => .error .UnknownCarrier

/-- Forward lookup `CARRIER_MAP[carrier]` guarded by
`carrier in CARRIER_MAP` (main.py lines 216–220). -/
def domainFor (carrier : String) : Option String :=
  (CARRIER_MAP.find? (fun p => p.1 == carrier)).map (fun p => p.2)

/-- The encoding step of `send_sms` (main.py line 220):
`f"{phone_number}@{CARRIER_MAP[carrier]}"`, reached only when the carrier is
in the directory (line 216). -/
def encodeAddress (phone carrier : String) : Option String :=
  (domainFor carrier).map (fun d => phone ++ "@" ++ d)

/-- Python `str.strip()` on the whitespace this program encounters: drop
whitespace from both ends. -/
def pyStrip (s : String) : String :=
  String.mk
    (((s.toList.dropWhile Char.isWhitespace).reverse.dropWhile
        Char.isWhitespace).reverse)

/-- One fetched mail item, as the reader sees it after
`email.message_from_bytes` (main.py lines 71–73): the optional `From`
header, whether the message is multipart, its walked parts as
(content type, decoded payload — `none` when `.decode()` raises), and the
single-part payload (`none` when `.decode()` raises). -/
structure RawEmail where
  fromField : Option String
  isMultipart : Bool
  parts : List (String × Option String)
  payload : Option String
deriving DecidableEq

/-- The multipart body loop (main.py lines 92–100): the first `text/plain`
part whose payload decodes; a decode failure `continue`s to the next part;
`body` stays `""` when no part qualifies. -/
def extractMultipartBody : List (String × Option String) → String
  | [] => ""
  | (ctype, p) :: rest =>
    if ctype = "text/plain" then
      match p with
      | some b => b
      | none => extractMultipartBody rest
    else extractMultipartBody rest

/-- Body extraction (main.py lines 91–106): multipart walks the parts;
single-part decodes the sole payload, and a decode failure skips the
message (`none`). -/
def getBody (msg : RawEmail) : Option String :=
  if msg.isMultipart then some (extractMultipartBody msg.parts)
  else msg.payload

/-- The per-message filter of `fetch_unread_sms` (main.py lines 67–115):
skip on missing `From`, on a decode error from `parse_email_address`, on a
sender other than the target, on a single-part body decode failure, and on
an (untrimmed) empty body; otherwise keep `(phone, carrier, body.strip())`. -/
def processEmail (target : String) (msg : RawEmail) :
    Option (String × String × String) :=
  match msg.fromField with
  | none => none
  | some from_email =>
    match parse_email_address (pyStrip from_email) with
    | .error _ => none
    | .ok (phone, carrier) =>
      if phone ≠ target then none
      else
        match getBody msg with
        | none => none
        | some body =>
          if body = "" then none else some (phone, carrier, pyStrip body)

/-- The two `ValueError`s of `fetch_unread_sms` (main.py lines 65 and 118);
the spec groups both under `NoMessagesFound`. -/
inductive FetchError where
  | NoUnreadEmails
  | NoValidMessages
deriving DecidableEq

/-- `fetch_unread_sms` (main.py lines 47–120) over an abstract list of
unread inbox messages: raises when the unread search is empty, filters each
message, and raises when no message survives. -/
def fetch_unread_sms (target : String) (inbox : List RawEmail) :
    Except FetchError (List (String × String × String)) :=
  if inbox.isEmpty then .error .NoUnreadEmails
  else if (inbox.filterMap (processEmail target)).isEmpty then
    .error .NoValidMessages
  else .ok (inbox.filterMap (processEmail target))

/-- A row of the `messages` table as the pipeline inserts it
(`log_message_to_db`, main.py lines 174–186; schema in init_db.py
lines 11–21 — `id` and `created_at` are store-assigned and not supplied by
the pipeline). -/
structure Row where
  phone_number : String
  carrier : String
  raw_message : String
  parsed_intent : String
  response : String
deriving DecidableEq

/-- The external world: the classifier transport (content on success, an
exception on failure), whether a sqlite insert of a given row succeeds
(`false` = `sqlite3` raises), and whether SMTP transmission to a given
address succeeds (`false` = `aiosmtplib.send` raises). -/
structure Env where
  classifierResult : String → Except String String
  storeOk : Row → Bool
  smtpOk : String → Bool

/-- The literal sentinel returned by the classifier on any error
(main.py line 171). -/
def errorSentinel : String :=
  "\x7b\"error\": \"Unable to process the message\"\x7d"

/-- `get_chatgpt_response` (main.py lines 150–171): the model's content on
success; any exception is caught and the sentinel returned — this function
never raises. -/
def get_chatgpt_response (oracle : Except String String) : String :=
  match oracle with
  | .ok content => content
  | .error _ => errorSentinel

/-- The fixed confirmation text (main.py line 205). -/
def confirmationText : String := "Your update has been logged. Thank you!"

/-- Observable effects of one run. -/
inductive Step where
  | classified (body result : String)
  | logged (row : Row)
  | sent (toAddr message : String)
  | sendFailed (toAddr message : String)
  | sendUnsupported (phone carrier : String)
deriving DecidableEq

/-- `log_message_to_db` (main.py lines 174–186): a bare insert; sqlite
errors are not caught here, so a failing insert raises to the caller. -/
def log_message_to_db (env : Env) (phone_number carrier raw_message
    parsed_intent response : String) : Except Unit Row :=
  let row : Row := ⟨phone_number, carrier, raw_message, parsed_intent, response⟩
  if env.storeOk row then .ok row else .error ()

/-- The observable effects of `send_sms` (main.py lines 212–238): an
unknown carrier logs an error and returns without transmitting; otherwise
the message is transmitted to the resolved gateway address and any SMTP
exception is caught and logged. -/
def send_sms_trace (env : Env) (phone_number carrier message : String) :
    List Step :=
  match domainFor carrier with
  | none => [Step.sendUnsupported phone_number carrier]
  | some d =>
    if env.smtpOk (phone_number ++ "@" ++ d) then
      [Step.sent (phone_number ++ "@" ++ d) message]
    else [Step.sendFailed (phone_number ++ "@" ++ d) message]

/-- `send_sms` (main.py lines 212–238): the effects of the call paired with
its return value. In every branch the Python function returns `None`,
modelled by the `Unit` component: the caller receives no success/failure
result. -/
def send_sms (env : Env) (phone_number carrier message : String) :
    List Step × Unit :=
  (send_sms_trace env phone_number carrier message, ())

/-- The classifier output the pipeline obtains for a given body
(main.py line 199). -/
def gptOf (env : Env) (body : String) : String :=
  get_chatgpt_response (env.classifierResult body)

/-- The row the pipeline inserts for message `(p, c, b)`
(main.py line 202: both intent columns receive the classifier output). -/
def rowOf (env : Env) (p c b : String) : Row :=
  ⟨p, c, b, gptOf env b, gptOf env b⟩

/-- The per-message loop of `handle_unread_sms` (main.py lines 195–206):
classify, insert, send the fixed confirmation. A store exception escapes
the loop (there is no per-message handler), abandoning the remaining
messages; the Boolean records whether the loop ran to completion. -/
def processMessages (env : Env) :
    List (String × String × String) → List Step × Bool
  | [] => ([], true)
  | (phone, carrier, body) :: rest =>
    match log_message_to_db env phone carrier body (gptOf env body)
        (gptOf env body) with
    | .error () => ([Step.classified body (gptOf env body)], false)
    | .ok row =>
      (Step.classified body (gptOf env body) :: Step.logged row ::
        (send_sms env phone carrier confirmationText).1 ++
        (processMessages env rest).1,
       (processMessages env rest).2)

/-- `handle_unread_sms` (main.py lines 189–209): fetch, then the
per-message loop, the whole of it inside one `try`/`except` — a fetch
error or a store exception lands in the outer handler, which logs and
returns. The Boolean is `true` only when every message was processed. -/
def handle_unread_sms (env : Env) (target : String)
    (inbox : List RawEmail) : List Step × Bool :=
  match fetch_unread_sms target inbox with
  | .error _ => ([], false)
  | .ok msgs => processMessages env msgs

/-! ### The shape accepted by the decoder, stated declaratively -/

/-- `cs` decomposes as the regex body `\+?(\d+)@([a-zA-Z.]+)` demands,
the match reaching the very end of the input, with capture groups `digits`
and `dom`. -/
def AddrBody (cs digits dom : List Char) : Prop :=
  (cs = digits ++ '@' :: dom ∨ cs = '+' :: (digits ++ '@' :: dom)) ∧
  digits ≠ [] ∧ (∀ c ∈ digits, isDigitChar c) ∧
  dom ≠ [] ∧ (∀ c ∈ dom, isDomainChar c)

/-- `cs` is accepted by the full regex `^\+?(\d+)@([a-zA-Z.]+)$`: the body
reaches either the end of input or a single newline that ends the input
(Python's `$` accepts both). -/
def AddrShape (cs digits dom : List Char) : Prop :=
  AddrBody cs digits dom ∨
  (cs.getLast? = some '\n' ∧ AddrBody cs.dropLast digits dom)

/-- A string matches the decoder's accepted pattern. -/
def WellShaped (s : String) : Prop :=
  ∃ digits dom, AddrShape s.toList digits dom

/-- The shape the specification describes: optional leading `+`, one or
more digits, `@`, a domain of letters and dots, and nothing after the
domain. -/
def StrictShaped (s : String) : Prop :=
  ∃ digits dom, AddrBody s.toList digits dom

instance (cs digits dom : List Char) : Decidable (AddrBody cs digits dom) := by
  unfold AddrBody
  exact inferInstance

instance (cs digits dom : List Char) : Decidable (AddrShape cs digits dom) := by
  unfold AddrShape
  exact inferInstance

theorem stripPlus_self_or_plus (cs : List Char) :
    cs = stripPlus cs ∨ cs = '+' :: stripPlus cs := by
  cases cs with
  | nil => exact Or.inl rfl
  | cons c rest =>
    by_cases hc : c = '+'
    · subst hc; right; simp [stripPlus]
    · left; simp [stripPlus, hc]

theorem takeWhile_digits_append (p d : List Char)
    (hp : ∀ c ∈ p, isDigitChar c) :
    (p ++ '@' :: d).takeWhile isDigitChar = p ∧
    (p ++ '@' :: d).dropWhile isDigitChar = '@' :: d := by
  induction p with
  | nil =>
    refine ⟨?_, ?_⟩
    · exact List.takeWhile_cons_of_neg (by decide)
    · exact List.dropWhile_cons_of_neg (by decide)
  | cons c cs ih =>
    have hc : isDigitChar c := hp c (by simp)
    have ih' := ih (fun x hx => hp x (by simp [hx]))
    refine ⟨?_, ?_⟩
    · rw [List.cons_append, List.takeWhile_cons_of_pos hc, ih'.1]
    · rw [List.cons_append, List.dropWhile_cons_of_pos hc, ih'.2]

/-- Correctness of the body matcher: `matchAddrNoNL` succeeds with capture
groups `(p, d)` exactly when the input has the declarative body shape. -/
theorem matchAddrNoNL_eq_some_iff (cs p d : List Char) :
    matchAddrNoNL cs = some (p, d) ↔ AddrBody cs p d := by
  constructor
  · intro h
    unfold matchAddrNoNL at h
    rcases hsplit : (stripPlus cs).dropWhile isDigitChar with _ | ⟨a, dom⟩ <;>
      rw [hsplit] at h
    · simp [matchAddrAux] at h
    · rw [matchAddrAux] at h
      split at h
      · rename_i hcond
        rw [Option.some_inj, Prod.mk.injEq] at h
        obtain ⟨hp, hd⟩ := h
        simp only [Bool.and_eq_true, decide_eq_true_eq, Bool.not_eq_true',
          List.isEmpty_eq_false, List.all_eq_true] at hcond
        obtain ⟨⟨⟨ha, hpne⟩, hdomne⟩, hdomall⟩ := hcond
        subst ha; subst hd
        have hsp : stripPlus cs = p ++ '@' :: dom := by
          rw [← hp, ← hsplit]
          exact (List.takeWhile_append_dropWhile isDigitChar (stripPlus cs)).symm
        refine ⟨?_, ?_, ?_, hdomne, hdomall⟩
        · rcases stripPlus_self_or_plus cs with h0 | h0 <;>
            rw [hsp] at h0 <;> [exact Or.inl h0; exact Or.inr h0]
        · rw [← hp]; exact hpne
        · intro c hc
          rw [← hp] at hc
          exact List.mem_takeWhile_imp hc
      · exact absurd h (by simp)
  · rintro ⟨hcs, hpne, hpall, hdne, hdall⟩
    have hsp : stripPlus cs = p ++ '@' :: d := by
      rcases hcs with h0 | h0
      · subst h0
        cases p with
        | nil => exact absurd rfl hpne
        | cons c csp =>
          have hc : isDigitChar c := hpall c (by simp)
          have hne : c ≠ '+' := by
            intro e; rw [e] at hc; exact absurd hc (by decide)
          simp [stripPlus, hne]
      · subst h0; simp [stripPlus]
    obtain ⟨htw, hdw⟩ := takeWhile_digits_append p d hpall
    unfold matchAddrNoNL
    rw [hsp, hdw, htw, matchAddrAux]
    rw [if_pos]
    simp only [Bool.and_eq_true, decide_eq_true_eq, Bool.not_eq_true',
      List.isEmpty_eq_false, List.all_eq_true]
    exact ⟨⟨⟨trivial, hpne⟩, hdne⟩, hdall⟩

theorem getLast?_domain_ne_newline (d : List Char)
    (hdall : ∀ c ∈ d, isDomainChar c) (l : List Char) :
    (l ++ '@' :: d).getLast? ≠ some '\n' := by
  rw [List.getLast?_append_cons]
  intro h
  have hmem : '\n' ∈ '@' :: d := by
    obtain ⟨hne, heq⟩ := List.mem_getLast?_eq_getLast (Option.mem_def.mpr h)
    rw [heq]
    exact List.getLast_mem hne
  rcases List.mem_cons.mp hmem with h1 | h1
  · exact absurd h1 (by decide)
  · exact absurd (hdall _ h1) (by decide)

/-- A string accepted with the match reaching the end of input does not end
in a newline (its last character is a domain character). -/
theorem addrBody_getLast_ne_newline (cs p d : List Char)
    (h : AddrBody cs p d) : cs.getLast? ≠ some '\n' := by
  obtain ⟨hcs, _, _, hdne, hdall⟩ := h
  rcases hcs with h0 | h0 <;> rw [h0]
  · exact getLast?_domain_ne_newline d hdall p
  · rw [show '+' :: (p ++ '@' :: d) = ('+' :: p) ++ '@' :: d from rfl]
    exact getLast?_domain_ne_newline d hdall ('+' :: p)

/-- Correctness of the full regex embedding, Python `$` semantics included:
`matchAddr` succeeds with capture groups `(p, d)` exactly when the input
has the declarative shape, a single trailing newline allowed. -/
theorem matchAddr_eq_some_iff (cs p d : List Char) :
    matchAddr cs = some (p, d) ↔ AddrShape cs p d := by
  unfold matchAddr stripTrailingNewline AddrShape
  by_cases hl : cs.getLast? = some '\n'
  · rw [if_pos hl, matchAddrNoNL_eq_some_iff]
    constructor
    · intro hb
      exact Or.inr ⟨hl, hb⟩
    · rintro (hb | ⟨_, hb⟩)
      · exact absurd hl (addrBody_getLast_ne_newline cs p d hb)
      · exact hb
  · rw [if_neg hl, matchAddrNoNL_eq_some_iff]
    constructor
    · intro hb
      exact Or.inl hb
    · rintro (hb | ⟨hl2, _⟩)
      · exact hb
      · exact absurd hl2 hl

theorem strictShaped_iff_isSome (s : String) :
    StrictShaped s ↔ (matchAddrNoNL s.toList).isSome := by
  constructor
  · rintro ⟨digits, dom, hs⟩
    rw [(matchAddrNoNL_eq_some_iff s.toList digits dom).mpr hs]
    rfl
  · intro h
    rcases hm : matchAddrNoNL s.toList with _ | ⟨p, d⟩
    · rw [hm] at h; exact absurd h (by simp)
    · exact ⟨p, d, (matchAddrNoNL_eq_some_iff s.toList p d).mp hm⟩

instance (s : String) : Decidable (StrictShaped s) :=
  decidable_of_iff _ (strictShaped_iff_isSome s).symm

theorem wellShaped_iff_isSome (s : String) :
    WellShaped s ↔ (matchAddr s.toList).isSome := by
  constructor
  · rintro ⟨digits, dom, hs⟩
    rw [(matchAddr_eq_some_iff s.toList digits dom).mpr hs]
    rfl
  · intro h
    rcases hm : matchAddr s.toList with _ | ⟨p, d⟩
    · rw [hm] at h; exact absurd h (by simp)
    · exact ⟨p, d, (matchAddr_eq_some_iff s.toList p d).mp hm⟩

instance (s : String) : Decidable (WellShaped s) :=
  decidable_of_iff _ (wellShaped_iff_isSome s).symm

/-- Decoding an address built as `phone@dom` when the directory maps `dom`
to `carrier`. -/
theorem parse_append_domain (phone dom carrier : String)
    (hne : phone.toList ≠ []) (hdig : ∀ c ∈ phone.toList, isDigitChar c)
    (hdomne : dom.toList ≠ []) (hdom : ∀ c ∈ dom.toList, isDomainChar c)
    (hcar : carrierFor dom = some carrier) :
    parse_email_address (phone ++ "@" ++ dom) = .ok (phone, carrier) := by
  have htl : (phone ++ "@" ++ dom).toList =
      phone.toList ++ '@' :: dom.toList := by
    show (phone ++ "@" ++ dom).data = phone.data ++ '@' :: dom.data
    rw [String.data_append, String.data_append]
    simp
  have hm : matchAddr ((phone ++ "@" ++ dom).toList) =
      some (phone.toList, dom.toList) := by
    rw [htl]
    exact (matchAddr_eq_some_iff _ _ _).mpr
      (Or.inl ⟨Or.inl rfl, hne, hdig, hdomne, hdom⟩)
  have hmk1 : String.mk dom.toList = dom := rfl
  have hmk2 : String.mk phone.toList = phone := rfl
  unfold parse_email_address
  rw [hm]
  show (match carrierFor (String.mk dom.toList) with
    | some carrier => Except.ok (String.mk phone.toList, carrier)
    | none => Except.error ParseError.UnknownCarrier) = _
  rw [hmk1, hmk2, hcar]

/-- C1: for every carrier in the directory and every nonempty all-digit
phone number, encoding `(phone, carrier)` into a gateway address and then
decoding that address returns exactly `(phone, carrier)`. -/
theorem C1_encode_decode_roundtrip (carrier domain : String)
    (hmem : (carrier, domain) ∈ CARRIER_MAP) (phone : String)
    (hne : phone.toList ≠ []) (hdig : ∀ c ∈ phone.toList, isDigitChar c) :
    encodeAddress phone carrier = some (phone ++ "@" ++ domain) ∧
    parse_email_address (phone ++ "@" ++ domain) = .ok (phone, carrier) := by
  simp only [CARRIER_MAP, List.mem_cons, List.mem_singleton,
    Prod.mk.injEq, List.not_mem_nil, or_false] at hmem
  rcases hmem with ⟨rfl, rfl⟩ | ⟨rfl, rfl⟩ | ⟨rfl, rfl⟩ | ⟨rfl, rfl⟩ |
    ⟨rfl, rfl⟩ | ⟨rfl, rfl⟩ | ⟨rfl, rfl⟩ <;>
    exact ⟨rfl, parse_append_domain phone _ _ hne hdig (by decide) (by decide) rfl⟩

/-- C1 witness at `phone = "15052897944"`, `carrier = "tmobile"`. -/
theorem C1_encode_decode_roundtrip_witness :
    encodeAddress "15052897944" "tmobile" =
      some ("15052897944" ++ "@" ++ "tmomail.net") ∧
    parse_email_address ("15052897944" ++ "@" ++ "tmomail.net") =
      .ok ("15052897944", "tmobile") :=
  C1_encode_decode_roundtrip "tmobile" "tmomail.net" (by decide)
    "15052897944" (by decide) (by decide)

/-- C5 counterexample: the Python regex's `$` also matches just before a
newline that ends the string, so the decoder accepts `"123@vtext.com\n"`
and returns `("123", "verizon")`, although that string is not of the
claimed shape (optional `+`, digits, `@`, letters and dots, and nothing
further) — refuting the claim that every string outside that shape fails
with `MalformedAddress`. -/
theorem C5_counterexample :
    parse_email_address "123@vtext.com\n" = .ok ("123", "verizon") ∧
    ¬ StrictShaped "123@vtext.com\n" :=
  ⟨rfl, by decide⟩

/-- C5 amended: the decoder fails with `MalformedAddress` on every string
not of the accepted shape — optional `+`, one or more decimal digits
(Python `\d`), `@`, letters/dots, with at most a single trailing newline
after the domain (Python `$`) — fails with `UnknownCarrier` on every
accepted string whose domain equals no directory entry's gateway domain,
and on the two concrete examples: `+15052897944@tmomail.net` decodes to
`("15052897944", "tmobile")` while `abc@tmomail.net` fails. -/
theorem C5_decode_error_taxonomy :
    (∀ s : String, ¬ WellShaped s →
      parse_email_address s = .error .MalformedAddress) ∧
    (∀ (s : String) (digits dom : List Char), AddrShape s.toList digits dom →
      (∀ p ∈ CARRIER_MAP, p.2 ≠ String.mk dom) →
      parse_email_address s = .error .UnknownCarrier) ∧
    parse_email_address "+15052897944@tmomail.net" =
      .ok ("15052897944", "tmobile") ∧
    parse_email_address "abc@tmomail.net" = .error .MalformedAddress := by
  refine ⟨?_, ?_, by rfl, by rfl⟩
  · intro s hw
    unfold parse_email_address
    rcases hm : matchAddr s.toList with _ | ⟨p, d⟩
    · rfl
    · exact absurd ⟨p, d, (matchAddr_eq_some_iff _ _ _).mp hm⟩ hw
  · intro s digits dom hshape hnone
    have hm : matchAddr s.toList = some (digits, dom) :=
      (matchAddr_eq_some_iff _ _ _).mpr hshape
    have hcf : carrierFor (String.mk dom) = none := by
      unfold carrierFor
      have hfind : CARRIER_MAP.find? (fun p => p.2 == String.mk dom) = none := by
        rw [List.find?_eq_none]
        intro x hx
        simpa using hnone x hx
      rw [hfind]
      rfl
    unfold parse_email_address
    rw [hm]
    show (match carrierFor (String.mk dom) with
      | some carrier => Except.ok (String.mk digits, carrier)
      | none => Except.error ParseError.UnknownCarrier) = _
    rw [hcf]

/-- C5 witness: `"abc"` is not well-shaped and decodes to
`MalformedAddress`; `"123@example.com"` is well-shaped with a domain absent
from the directory and decodes to `UnknownCarrier`. -/
theorem C5_decode_error_taxonomy_witness :
    parse_email_address "abc" = .error .MalformedAddress ∧
    parse_email_address "123@example.com" = .error .UnknownCarrier :=
  ⟨C5_decode_error_taxonomy.1 "abc" (by decide),
   C5_decode_error_taxonomy.2.1 "123@example.com"
     "123".toList "example.com".toList (by decide) (by decide)⟩

/-- C9: whenever the decoder succeeds, the returned phone number is a
nonempty string of digits containing no `+`, and the returned carrier is a
key of the directory. -/
theorem C9_parse_success_invariant (s phone carrier : String)
    (h : parse_email_address s = .ok (phone, carrier)) :
    phone.toList ≠ [] ∧ (∀ c ∈ phone.toList, isDigitChar c) ∧
    (∀ c ∈ phone.toList, c ≠ '+') ∧
    carrier ∈ CARRIER_MAP.map Prod.fst := by
  unfold parse_email_address at h
  split at h
  · cases h
  · rename_i p d hm
    split at h
    · rename_i c hc
      injection h with h'
      rw [Prod.mk.injEq] at h'
      obtain ⟨h1, h2⟩ := h'
      have hshape := (matchAddr_eq_some_iff _ _ _).mp hm
      obtain ⟨hpne, hpall⟩ : p ≠ [] ∧ ∀ x ∈ p, isDigitChar x := by
        rcases hshape with hb | ⟨_, hb⟩ <;> exact ⟨hb.2.1, hb.2.2.1⟩
      have hphone : phone.toList = p := by rw [← h1]; exact rfl
      refine ⟨?_, ?_, ?_, ?_⟩
      · rw [hphone]; exact hpne
      · rw [hphone]; exact hpall
      · rw [hphone]
        intro x hx he
        have := hpall x hx
        rw [he] at this
        exact absurd this (by decide)
      · rw [← h2]
        unfold carrierFor at hc
        obtain ⟨pair, hfind, hfst⟩ := Option.map_eq_some'.mp hc
        rw [← hfst]
        exact List.mem_map_of_mem Prod.fst (List.mem_of_find?_eq_some hfind)
    · cases h

/-- C9 witness at the concrete success `+15052897944@tmomail.net`. -/
theorem C9_parse_success_invariant_witness :
    "15052897944".toList ≠ [] ∧
    (∀ c ∈ "15052897944".toList, isDigitChar c) ∧
    (∀ c ∈ "15052897944".toList, c ≠ '+') ∧
    "tmobile" ∈ CARRIER_MAP.map Prod.fst :=
  C9_parse_success_invariant "+15052897944@tmomail.net" "15052897944"
    "tmobile" (by rfl)

/-- Every message the filter keeps carries the target phone number. -/
theorem processEmail_some_fst (target : String) (msg : RawEmail)
    (t : String × String × String) (h : processEmail target msg = some t) :
    t.1 = target := by
  unfold processEmail at h
  split at h
  · cases h
  · split at h
    · cases h
    · rename_i phone carrier hparse
      split at h
      · cases h
      · rename_i hphone
        split at h
        · cases h
        · split at h
          · cases h
          · injection h with h'
            rw [← h']
            exact not_ne_iff.mp hphone

/-- C4: the fetch never reports an empty batch as a success — an empty
unread search fails with the first `NoMessagesFound` error, and a batch in
which no message survives filtering fails with the second. -/
theorem C4_no_messages_is_error (target : String) (inbox : List RawEmail) :
    (∀ msgs, fetch_unread_sms target inbox = .ok msgs → msgs ≠ []) ∧
    (inbox = [] →
      fetch_unread_sms target inbox = .error .NoUnreadEmails) ∧
    (inbox ≠ [] → inbox.filterMap (processEmail target) = [] →
      fetch_unread_sms target inbox = .error .NoValidMessages) := by
  refine ⟨?_, ?_, ?_⟩
  · intro msgs h
    unfold fetch_unread_sms at h
    split at h
    · cases h
    · split at h
      · cases h
      · rename_i hne
        injection h with h'
        rw [← h']
        exact fun e => hne (by rw [e]; rfl)
  · intro h
    subst h
    rfl
  · intro hne hfil
    unfold fetch_unread_sms
    rw [if_neg (by simpa using hne), hfil]
    rfl

/-- C4 witness: the empty mailbox fails with `NoUnreadEmails`, and a
mailbox whose only message has no `From` header fails with
`NoValidMessages`. -/
theorem C4_no_messages_is_error_witness :
    fetch_unread_sms "15052897944" [] = .error .NoUnreadEmails ∧
    fetch_unread_sms "15052897944" [⟨none, false, [], some "hi"⟩] =
      .error .NoValidMessages :=
  ⟨(C4_no_messages_is_error "15052897944" []).2.1 rfl,
   (C4_no_messages_is_error "15052897944"
      [⟨none, false, [], some "hi"⟩]).2.2 (by decide) (by rfl)⟩

/-- C6: every tuple a successful fetch returns has the configured target as
its phone number, and a message whose decoded sender is any other number is
filtered out (skipped, not an error) however well-formed it is. -/
theorem C6_only_target_messages (target : String) (inbox : List RawEmail) :
    (∀ msgs, fetch_unread_sms target inbox = .ok msgs →
      ∀ p c b, (p, c, b) ∈ msgs → p = target) ∧
    (∀ (msg : RawEmail) (fe phone carrier : String),
      msg.fromField = some fe →
      parse_email_address (pyStrip fe) = .ok (phone, carrier) →
      phone ≠ target → processEmail target msg = none) := by
  refine ⟨?_, ?_⟩
  · intro msgs h p c b hmem
    unfold fetch_unread_sms at h
    split at h
    · cases h
    · split at h
      · cases h
      · injection h with h'
        rw [← h'] at hmem
        obtain ⟨msg, _, hp⟩ := List.mem_filterMap.mp hmem
        exact processEmail_some_fst target msg (p, c, b) hp
  · intro msg fe phone carrier hfrom hparse hne
    unfold processEmail
    rw [hfrom]
    show (match parse_email_address (pyStrip fe) with
      | .error _ => none
      | .ok (phone, carrier) =>
        if phone ≠ target then none
        else
          match getBody msg with
          | none => none
          | some body =>
            if body = "" then none
            else some (phone, carrier, pyStrip body)) = none
    rw [hparse]
    show (if phone ≠ target then none else _) = none
    rw [if_pos hne]

/-- C6 witness: an otherwise well-formed message from `15055551234` is
filtered out when the target is `15052897944`. -/
theorem C6_only_target_messages_witness :
    processEmail "15052897944"
      ⟨some "+15055551234@tmomail.net", false, [], some "hello"⟩ = none :=
  (C6_only_target_messages "15052897944"
      [⟨some "+15055551234@tmomail.net", false, [], some "hello"⟩]).2
    ⟨some "+15055551234@tmomail.net", false, [], some "hello"⟩
    "+15055551234@tmomail.net" "15055551234" "tmobile"
    rfl (by rfl) (by decide)

/-- A well-formed message from the target whose body is a single space. -/
def wsBodyMsg : RawEmail :=
  ⟨some "+15052897944@tmomail.net", false, [], some " "⟩

/-- C8 counterexample: the reader checks emptiness of the body *before*
trimming (`if not body`), so a message whose body is only whitespace is not
skipped — it survives the fetch, with its trimmed (empty) body, refuting
the claim that it does not appear in the fetch result. -/
theorem C8_counterexample :
    getBody wsBodyMsg = some " " ∧ pyStrip " " = "" ∧
    fetch_unread_sms "15052897944" [wsBodyMsg] =
      .ok [("15052897944", "tmobile", "")] ∧
    ("15052897944", "tmobile", "") ∈ [("15052897944", ("tmobile", ""))] :=
  ⟨rfl, rfl, rfl, by decide⟩

/-- C8 amended: a message that reaches body extraction is skipped exactly
when the extracted body is the empty string before any trimming; otherwise
it is kept with the trimmed body — in particular a whitespace-only body is
kept (as the empty trimmed string), not skipped. -/
theorem C8_skip_untrimmed_empty_only (target : String) (msg : RawEmail)
    (fe phone carrier body : String)
    (hfrom : msg.fromField = some fe)
    (hparse : parse_email_address (pyStrip fe) = .ok (phone, carrier))
    (hphone : phone = target)
    (hbody : getBody msg = some body) :
    processEmail target msg =
      (if body = "" then none else some (phone, carrier, pyStrip body)) := by
  unfold processEmail
  rw [hfrom]
  show (match parse_email_address (pyStrip fe) with
    | .error _ => none
    | .ok (phone, carrier) =>
      if phone ≠ target then none
      else
        match getBody msg with
        | none => none
        | some body =>
          if body = "" then none
          else some (phone, carrier, pyStrip body)) = _
  rw [hparse]
  show (if phone ≠ target then none else _) = _
  rw [if_neg (not_ne_iff.mpr hphone)]
  show (match getBody msg with
    | none => none
    | some body =>
      if body = "" then none
      else some (phone, carrier, pyStrip body)) = _
  rw [hbody]

/-- C8 witness: applied to `wsBodyMsg`, whose body `" "` is nonempty before
trimming, so the message is kept with trimmed body `""`. -/
theorem C8_skip_untrimmed_empty_only_witness :
    processEmail "15052897944" wsBodyMsg =
      (if (" " : String) = "" then none
       else some ("15052897944", "tmobile", pyStrip " ")) :=
  C8_skip_untrimmed_empty_only "15052897944" wsBodyMsg
    "+15052897944@tmomail.net" "15052897944" "tmobile" " "
    rfl (by rfl) rfl rfl

theorem processMessages_cons_ok (env : Env) (p c b : String)
    (rest : List (String × String × String))
    (h : env.storeOk (rowOf env p c b) = true) :
    processMessages env ((p, c, b) :: rest) =
      (Step.classified b (gptOf env b) :: Step.logged (rowOf env p c b) ::
        send_sms_trace env p c confirmationText ++
        (processMessages env rest).1,
       (processMessages env rest).2) := by
  have h' : env.storeOk ⟨p, c, b, gptOf env b, gptOf env b⟩ = true := h
  simp [processMessages, log_message_to_db, send_sms, h', rowOf]

theorem processMessages_cons_fail (env : Env) (p c b : String)
    (rest : List (String × String × String))
    (h : env.storeOk (rowOf env p c b) = false) :
    processMessages env ((p, c, b) :: rest) =
      ([Step.classified b (gptOf env b)], false) := by
  have h' : env.storeOk ⟨p, c, b, gptOf env b, gptOf env b⟩ = false := h
  simp [processMessages, log_message_to_db, h']

theorem processMessages_all_ok (env : Env)
    (msgs : List (String × String × String))
    (hok : ∀ p c b, (p, c, b) ∈ msgs → env.storeOk (rowOf env p c b) = true) :
    (processMessages env msgs).2 = true ∧
    ∀ p c b, (p, c, b) ∈ msgs →
      Step.logged (rowOf env p c b) ∈ (processMessages env msgs).1 := by
  induction msgs with
  | nil => exact ⟨rfl, by simp⟩
  | cons hd rest ih =>
    obtain ⟨p, c, b⟩ := hd
    have hm : env.storeOk (rowOf env p c b) = true := hok p c b (by simp)
    obtain ⟨ih1, ih2⟩ := ih (fun p' c' b' h' => hok p' c' b' (by simp [h']))
    rw [processMessages_cons_ok env p c b rest hm]
    refine ⟨ih1, ?_⟩
    intro p' c' b' hmem
    rcases List.mem_cons.mp hmem with heq | hmem'
    · simp only [Prod.mk.injEq] at heq
      obtain ⟨rfl, rfl, rfl⟩ := heq
      simp
    · exact List.mem_cons_of_mem _ (List.mem_cons_of_mem _
        (List.mem_append_right _ (ih2 p' c' b' hmem')))

/-- An environment whose classifier succeeds with output `"ok"`, whose
store rejects every insert, and whose SMTP endpoint accepts everything. -/
def storeFailEnv : Env :=
  ⟨fun _ => .ok "classified-json", fun _ => false, fun _ => true⟩

/-- An environment in which every external call succeeds. -/
def allOkEnv : Env :=
  ⟨fun _ => .ok "classified-json", fun _ => true, fun _ => true⟩

/-- An environment whose classifier transport fails and whose store and
SMTP endpoint work. -/
def classifierDownEnv : Env :=
  ⟨fun _ => .error "connection timeout", fun _ => true, fun _ => true⟩

/-- C2 counterexample: with a store that fails on message 1 of a
two-message batch, the second message is never classified, logged, or
replied to — the batch stops at the first store exception, refuting the
claim that per-message store failures do not abort the remaining
messages. -/
theorem C2_counterexample :
    processMessages storeFailEnv
        [("15052897944", "tmobile", "first"),
         ("15052897944", "tmobile", "second")] =
      ([Step.classified "first" "classified-json"], false) ∧
    Step.classified "second" "classified-json" ∉
      (processMessages storeFailEnv
        [("15052897944", "tmobile", "first"),
         ("15052897944", "tmobile", "second")]).1 := by
  refine ⟨by rfl, by decide⟩

/-- C2 corrected: a per-message classification failure is indeed absorbed
(the classifier never raises, so a batch whose inserts all succeed runs to
completion and logs every message, whatever the classifier transport
does); but a store write failure while logging message N raises out of the
loop: the trace stops at message N's classification and the remaining
messages are abandoned. -/
theorem C2_store_failure_aborts_batch (env : Env) :
    (∀ msgs : List (String × String × String),
      (∀ p c b, (p, c, b) ∈ msgs → env.storeOk (rowOf env p c b) = true) →
      (processMessages env msgs).2 = true ∧
      ∀ p c b, (p, c, b) ∈ msgs →
        Step.logged (rowOf env p c b) ∈ (processMessages env msgs).1) ∧
    (∀ p c b rest, env.storeOk (rowOf env p c b) = false →
      processMessages env ((p, c, b) :: rest) =
        ([Step.classified b (gptOf env b)], false)) :=
  ⟨fun msgs hok => processMessages_all_ok env msgs hok,
   fun p c b rest h => processMessages_cons_fail env p c b rest h⟩

/-- C2 witness: a classifier-down batch still completes when the store
works, and a store failure on the head message aborts with only its
classification in the trace. -/
theorem C2_store_failure_aborts_batch_witness :
    ((processMessages classifierDownEnv
        [("15052897944", "tmobile", "hello")]).2 = true ∧
      ∀ p c b, (p, c, b) ∈ [("15052897944", ("tmobile", "hello"))] →
        Step.logged (rowOf classifierDownEnv p c b) ∈
          (processMessages classifierDownEnv
            [("15052897944", "tmobile", "hello")]).1) ∧
    processMessages storeFailEnv [("15052897944", "tmobile", "hello")] =
      ([Step.classified "hello" (gptOf storeFailEnv "hello")], false) :=
  ⟨(C2_store_failure_aborts_batch classifierDownEnv).1
      [("15052897944", "tmobile", "hello")] (fun _ _ _ _ => rfl),
   (C2_store_failure_aborts_batch storeFailEnv).2
      "15052897944" "tmobile" "hello" [] rfl⟩

/-- C3: when the classifier transport fails for a message's body, the
classify step returns the literal sentinel
`{"error": "Unable to process the message"}` instead of raising, and the
orchestrator still logs a row for that message (both intent columns holding
the sentinel) and still invokes the confirmation send — the send's steps
appear in the trace and the loop moves on to the remaining messages. -/
theorem C3_classifier_error_degrades (env : Env) (p c b e : String)
    (rest : List (String × String × String))
    (herr : env.classifierResult b = .error e)
    (hstore : env.storeOk ⟨p, c, b, errorSentinel, errorSentinel⟩ = true) :
    gptOf env b = errorSentinel ∧
    processMessages env ((p, c, b) :: rest) =
      (Step.classified b errorSentinel ::
        Step.logged ⟨p, c, b, errorSentinel, errorSentinel⟩ ::
        send_sms_trace env p c confirmationText ++
        (processMessages env rest).1,
       (processMessages env rest).2) := by
  have hg : gptOf env b = errorSentinel := by
    unfold gptOf get_chatgpt_response
    rw [herr]
  have hrow : rowOf env p c b = ⟨p, c, b, errorSentinel, errorSentinel⟩ := by
    unfold rowOf
    rw [hg]
  refine ⟨hg, ?_⟩
  rw [processMessages_cons_ok env p c b rest (by rw [hrow]; exact hstore),
    hrow, hg]

/-- C3 witness with a concrete failing transport and one message. -/
theorem C3_classifier_error_degrades_witness :
    gptOf classifierDownEnv "buy milk" = errorSentinel ∧
    processMessages classifierDownEnv [("15052897944", "tmobile", "buy milk")] =
      (Step.classified "buy milk" errorSentinel ::
        Step.logged ⟨"15052897944", "tmobile", "buy milk",
          errorSentinel, errorSentinel⟩ ::
        send_sms_trace classifierDownEnv "15052897944" "tmobile"
          confirmationText ++
        (processMessages classifierDownEnv []).1,
       (processMessages classifierDownEnv []).2) :=
  C3_classifier_error_degrades classifierDownEnv "15052897944" "tmobile"
    "buy milk" "connection timeout" [] rfl rfl

theorem send_sms_trace_mem (env : Env) (pn c m : String) (s : Step)
    (h : s ∈ send_sms_trace env pn c m) :
    s = Step.sendUnsupported pn c ∨
    (∃ a, s = Step.sent a m) ∨ (∃ a, s = Step.sendFailed a m) := by
  unfold send_sms_trace at h
  split at h
  · exact Or.inl (List.mem_singleton.mp h)
  · split at h
    · exact Or.inr (Or.inl ⟨_, List.mem_singleton.mp h⟩)
    · exact Or.inr (Or.inr ⟨_, List.mem_singleton.mp h⟩)

/-- C10: every row the pipeline inserts is exactly
`(phone, carrier, body, g, g)` with `g` the classifier output for that
body — `parsed_intent` and `response` always hold the same classifier
output string — while the fixed confirmation text appears only in the
outbound send steps, never in an inserted row. -/
theorem C10_intent_equals_response (env : Env)
    (msgs : List (String × String × String)) :
    (∀ row, Step.logged row ∈ (processMessages env msgs).1 →
      row.parsed_intent = row.response ∧
      ∃ p c b, (p, c, b) ∈ msgs ∧ row = rowOf env p c b) ∧
    (∀ a m, Step.sent a m ∈ (processMessages env msgs).1 →
      m = confirmationText) ∧
    (∀ a m, Step.sendFailed a m ∈ (processMessages env msgs).1 →
      m = confirmationText) := by
  induction msgs with
  | nil =>
    refine ⟨?_, ?_, ?_⟩
    · intro row h; simp [processMessages] at h
    · intro a m h; simp [processMessages] at h
    · intro a m h; simp [processMessages] at h
  | cons hd rest ih =>
    obtain ⟨p, c, b⟩ := hd
    obtain ⟨ih1, ih2, ih3⟩ := ih
    cases hstore : env.storeOk (rowOf env p c b) with
    | false =>
      rw [processMessages_cons_fail env p c b rest hstore]
      refine ⟨?_, ?_, ?_⟩
      · intro row h; simp at h
      · intro a m h; simp at h
      · intro a m h; simp at h
    | true =>
      rw [processMessages_cons_ok env p c b rest hstore]
      refine ⟨?_, ?_, ?_⟩
      · intro row hmem
        rcases List.mem_cons.mp hmem with h | hmem1
        · exact absurd h (by simp)
        rcases List.mem_cons.mp hmem1 with h | hmem2
        · injection h with hr
          subst hr
          exact ⟨rfl, p, c, b, by simp, rfl⟩
        rcases List.mem_append.mp hmem2 with h | hmem3
        · rcases send_sms_trace_mem env p c confirmationText _ h with
            h1 | ⟨a, h1⟩ | ⟨a, h1⟩ <;> exact absurd h1 (by simp)
        · obtain ⟨heq, p', c', b', hm, hrow⟩ := ih1 row hmem3
          exact ⟨heq, p', c', b', by simp [hm], hrow⟩
      · intro a m hmem
        rcases List.mem_cons.mp hmem with h | hmem1
        · exact absurd h (by simp)
        rcases List.mem_cons.mp hmem1 with h | hmem2
        · exact absurd h (by simp)
        rcases List.mem_append.mp hmem2 with h | hmem3
        · rcases send_sms_trace_mem env p c confirmationText _ h with
            h1 | ⟨a', h1⟩ | ⟨a', h1⟩
          · exact absurd h1 (by simp)
          · injection h1
          · exact absurd h1 (by simp)
        · exact ih2 a m hmem3
      · intro a m hmem
        rcases List.mem_cons.mp hmem with h | hmem1
        · exact absurd h (by simp)
        rcases List.mem_cons.mp hmem1 with h | hmem2
        · exact absurd h (by simp)
        rcases List.mem_append.mp hmem2 with h | hmem3
        · rcases send_sms_trace_mem env p c confirmationText _ h with
            h1 | ⟨a', h1⟩ | ⟨a', h1⟩
          · exact absurd h1 (by simp)
          · exact absurd h1 (by simp)
          · injection h1
        · exact ih3 a m hmem3

/-- C10 witness: the single logged row of a one-message run holds the
classifier output in both intent columns. -/
theorem C10_intent_equals_response_witness :
    (rowOf allOkEnv "15052897944" "tmobile" "note: milk").parsed_intent =
      (rowOf allOkEnv "15052897944" "tmobile" "note: milk").response ∧
    ∃ p c b, (p, c, b) ∈ [("15052897944", ("tmobile", "note: milk"))] ∧
      rowOf allOkEnv "15052897944" "tmobile" "note: milk" = rowOf allOkEnv p c b :=
  (C10_intent_equals_response allOkEnv
      [("15052897944", "tmobile", "note: milk")]).1
    (rowOf allOkEnv "15052897944" "tmobile" "note: milk") (by decide)

/-- An environment whose store works but whose SMTP endpoint rejects every
transmission. -/
def smtpDownEnv : Env :=
  ⟨fun _ => .ok "classified-json", fun _ => true, fun _ => false⟩

/-- C7 counterexample: the unknown-carrier abort and a fully successful
transmission return the same caller-visible value — the Python function
returns `None` in every branch, so the caller has no success-or-failure
result to check; the two calls differ only in their logged and transmitted
effects, as the trace components show. -/
theorem C7_counterexample :
    (send_sms allOkEnv "15052897944" "nocarrier" "hi").2 =
      (send_sms allOkEnv "15052897944" "tmobile" "hi").2 ∧
    (send_sms allOkEnv "15052897944" "nocarrier" "hi").1 =
      [Step.sendUnsupported "15052897944" "nocarrier"] ∧
    (send_sms allOkEnv "15052897944" "tmobile" "hi").1 =
      [Step.sent "15052897944@tmomail.net" "hi"] :=
  ⟨rfl, rfl, rfl⟩

/-- C7 corrected: `send_sms` never raises — an unknown carrier aborts the
send with only an error log and no transmission, an SMTP failure is caught
and logged with the resolved recipient, and send failures never abort the
per-message loop — but the function returns `None` in every branch, so
failure is reported only through logging, not through a result the caller
could check. -/
theorem C7_send_failures_contained (env : Env) (pn c m : String) :
    (send_sms env pn c m).2 = () ∧
    (domainFor c = none →
      (send_sms env pn c m).1 = [Step.sendUnsupported pn c]) ∧
    (∀ d, domainFor c = some d → env.smtpOk (pn ++ "@" ++ d) = false →
      (send_sms env pn c m).1 = [Step.sendFailed (pn ++ "@" ++ d) m]) ∧
    (∀ msgs : List (String × String × String),
      (∀ p' c' b', (p', c', b') ∈ msgs →
        env.storeOk (rowOf env p' c' b') = true) →
      (processMessages env msgs).2 = true) := by
  refine ⟨rfl, ?_, ?_, ?_⟩
  · intro h
    simp [send_sms, send_sms_trace, h]
  · intro d hd hsm
    simp [send_sms, send_sms_trace, hd, hsm]
  · intro msgs hok
    exact (processMessages_all_ok env msgs hok).1

/-- C7 witness: with SMTP down, the unknown-carrier branch and the caught
SMTP failure produce their respective log-only traces, and a one-message
batch still runs to completion. -/
theorem C7_send_failures_contained_witness :
    (send_sms smtpDownEnv "15052897944" "nocarrier" "hi").1 =
      [Step.sendUnsupported "15052897944" "nocarrier"] ∧
    (send_sms smtpDownEnv "15052897944" "tmobile" "hi").1 =
      [Step.sendFailed ("15052897944" ++ "@" ++ "tmomail.net") "hi"] ∧
    (processMessages smtpDownEnv [("15052897944", "tmobile", "hello")]).2 =
      true :=
  ⟨(C7_send_failures_contained smtpDownEnv "15052897944" "nocarrier" "hi").2.1
      rfl,
   (C7_send_failures_contained smtpDownEnv "15052897944" "tmobile" "hi").2.2.1
      "tmomail.net" rfl rfl,
   (C7_send_failures_contained smtpDownEnv "15052897944" "tmobile" "hi").2.2.2
      [("15052897944", "tmobile", "hello")] (fun _ _ _ _ => rfl)⟩
